import Mathlib

/-!
# Verification of the push-pull membership-shuffling core (src/push_pull.rs)

Shallow embedding of the Rust module `push_pull.rs`. The `HashSet<NodeId>`
view is a `Finset NodeId`; `&mut self` methods become state-passing
functions returning the new `Node`.

Randomness is made explicit:
* the participation gate `should_send` draws `gen_bool(p)` from the thread
  rng; `gen_bool` panics when `p` is outside `[0, 1]`, which we model with
  `genBool : ℚ → Bool → Option Bool` returning `none` on the panicking
  inputs and `some draw` otherwise, `draw` being the boolean the rng would
  have produced;
* the protocol operations take the gate's boolean outcome `gate` and the
  element `pick` that `Iterator::choose` returned (`none` exactly when the
  view was empty, otherwise `some` of a member of the view — captured by
  `pickValid`).
-/

abbrev NodeId := Nat

structure PushPullRequest where
  «from» : NodeId
  «to» : NodeId
  deriving DecidableEq

structure PushPullResponse where
  «from» : NodeId
  «to» : NodeId
  selected : Option NodeId
  deriving DecidableEq

/-- `const DEGREE: usize = 4;` -/
def DEGREE : Nat := 4

structure Node where
  id : NodeId
  conns : Finset NodeId
  deriving DecidableEq

/-- `Node::new`: a node starts with an empty view. -/
def Node.new (id : NodeId) : Node :=
  { id := id, conns := ∅ }

/-- `Node::add_conn`: `HashSet::insert`, returning whether the element was new. -/
def Node.add_conn (self : Node) (other : NodeId) : Node × Bool :=
  ({ self with conns := insert other self.conns }, decide (other ∉ self.conns))

/-- `rand`'s `gen_bool(p)`: panics (`none`) unless `0 ≤ p ≤ 1`, else returns the
drawn boolean. -/
def genBool (p : ℚ) (draw : Bool) : Option Bool :=
  if 0 ≤ p ∧ p ≤ 1 then some draw else none

/-- `Node::should_send` (production path, no `force_send` override):
`p = conns.len() as f64 / DEGREE as f64` fed to `gen_bool` unclamped. -/
def Node.should_send (self : Node) (draw : Bool) : Option Bool :=
  genBool ((self.conns.card : ℚ) / (DEGREE : ℚ)) draw

/-- `Node::should_respond` just delegates to `should_send`. -/
def Node.should_respond (self : Node) (draw : Bool) : Option Bool :=
  self.should_send draw

/-- What `self.conns.iter().choose(&mut rng)` guarantees about its result:
`none` exactly on the empty view, otherwise a member of the view. -/
def pickValid (conns : Finset NodeId) (pick : Option NodeId) : Prop :=
  match pick with
  | some x => x ∈ conns
  | none => conns = ∅

instance (conns : Finset NodeId) (pick : Option NodeId) :
    Decidable (pickValid conns pick) := by
  unfold pickValid
  cases pick <;> infer_instance

/-- `Node::start_push_pull`, with the gate outcome and the chosen element
explicit. The view is returned unchanged (the Rust body never writes it). -/
def Node.start_push_pull (self : Node) (gate : Bool) (pick : Option NodeId) :
    Node × Option PushPullRequest :=
  if gate then
    let v2 := pick.getD self.id
    (self, some { «from» := self.id, «to» := v2 })
  else
    (self, none)

/-- `Node::handle_push_pull_request`: if the gate passes, pick `v3` from the
current view, erase it, insert `request.from`, answer `Some(v3.unwrap_or(self.id))`;
otherwise answer `None` and leave the view alone. -/
def Node.handle_push_pull_request (self : Node) (gate : Bool) (pick : Option NodeId)
    (request : PushPullRequest) : Node × PushPullResponse :=
  if gate then
    let v3 := pick
    let conns1 := match v3 with
      | some x => self.conns.erase x
      | none => self.conns
    let conns2 := insert request.«from» conns1
    ({ self with conns := conns2 },
      { «from» := self.id, «to» := request.«from», selected := some (v3.getD self.id) })
  else
    (self, { «from» := self.id, «to» := request.«from», selected := none })

/-- `Node::handle_push_pull_response`: on `Some(selected)` remove
`response.from` then insert `selected`; on `None` do nothing. -/
def Node.handle_push_pull_response (self : Node) (response : PushPullResponse) : Node :=
  match response.selected with
  | some selected => { self with conns := insert selected (self.conns.erase response.«from») }
  | none => self

/-- C1: the claim requires the gate probability to be clamped to
`min(1, size/degree)` and the gate never to panic, but `should_send` passes
the raw quotient to `gen_bool`: with the five-element view `{1,2,3,4,5}` and
`DEGREE = 4` the probability is `5/4 > 1` and `gen_bool` panics (modelled as
`none`). -/
theorem should_send_panics_above_degree :
    Node.should_send { id := 6, conns := {1, 2, 3, 4, 5} } true = none ∧
    (1 : ℚ) < ((({1, 2, 3, 4, 5} : Finset NodeId).card : ℚ) / (DEGREE : ℚ)) := by
  have hcard : ({1, 2, 3, 4, 5} : Finset NodeId).card = 5 := by decide
  constructor
  · unfold Node.should_send genBool
    rw [if_neg]
    simp only [hcard]
    rw [DEGREE]
    norm_num
  · rw [hcard, DEGREE]
    norm_num

/-- C5: `add_conn p` returns `true` iff `p` was absent, `p` is afterwards in
the view, and a second `add_conn p` returns `false` and leaves the node
unchanged. -/
theorem add_conn_spec (n : Node) (p : NodeId) :
    ((n.add_conn p).2 = true ↔ p ∉ n.conns) ∧
    p ∈ (n.add_conn p).1.conns ∧
    ((n.add_conn p).1.add_conn p).2 = false ∧
    ((n.add_conn p).1.add_conn p).1 = (n.add_conn p).1 := by
  unfold Node.add_conn
  refine ⟨by simp, by simp, by simp, ?_⟩
  simp [Finset.insert_idem]

/-- C2: when the responder's gate passes, `handle_push_pull_request` selects
`v3 = pick.getD self.id` against the view before any insertion (a member of
the old view when it is non-empty, the node's own id when it is empty),
erases `v3`, inserts `req.from`, and answers
`Response{from: self.id, to: req.from, selected: some v3}`. -/
theorem request_participate_spec (n : Node) (pick : Option NodeId)
    (req : PushPullRequest) (hpick : pickValid n.conns pick) :
    (n.handle_push_pull_request true pick req).2 =
      { «from» := n.id, «to» := req.«from», selected := some (pick.getD n.id) } ∧
    (n.handle_push_pull_request true pick req).1.id = n.id ∧
    (n.handle_push_pull_request true pick req).1.conns =
      insert req.«from» (n.conns.erase (pick.getD n.id)) ∧
    (n.conns ≠ ∅ → pick.getD n.id ∈ n.conns) ∧
    (n.conns = ∅ → pick.getD n.id = n.id) := by
  cases pick with
  | none =>
    have h : n.conns = ∅ := hpick
    simp [Node.handle_push_pull_request, h]
  | some x =>
    have h : x ∈ n.conns := hpick
    refine ⟨rfl, rfl, rfl, fun _ => h, fun he => absurd (he ▸ h) (Finset.not_mem_empty x)⟩

/-- Witness for C2 at `n = ⟨1, {2}⟩`, `pick = some 2`, `req = ⟨2, 1⟩`. -/
theorem request_participate_spec_witness :
    pickValid (Node.mk 1 {2}).conns (some 2) ∧
    ((Node.mk 1 {2}).handle_push_pull_request true (some 2) ⟨2, 1⟩).2 =
      { «from» := (Node.mk 1 {2}).id, «to» := (2 : NodeId),
        selected := some ((some (2 : NodeId)).getD (Node.mk 1 {2}).id) } ∧
    ((Node.mk 1 {2}).handle_push_pull_request true (some 2) ⟨2, 1⟩).1.id =
      (Node.mk 1 {2}).id ∧
    ((Node.mk 1 {2}).handle_push_pull_request true (some 2) ⟨2, 1⟩).1.conns =
      insert (2 : NodeId) ((Node.mk 1 {2}).conns.erase ((some (2 : NodeId)).getD (Node.mk 1 {2}).id)) ∧
    ((Node.mk 1 {2}).conns ≠ ∅ → (some (2 : NodeId)).getD (Node.mk 1 {2}).id ∈ (Node.mk 1 {2}).conns) ∧
    ((Node.mk 1 {2}).conns = ∅ → (some (2 : NodeId)).getD (Node.mk 1 {2}).id = (Node.mk 1 {2}).id) :=
  ⟨by decide, request_participate_spec (Node.mk 1 {2}) (some 2) ⟨2, 1⟩ (by decide)⟩

/-- C3: `handle_push_pull_request` answers `selected = none` exactly when the
gate failed, and on decline the view is untouched and the response is
`Response{from: self.id, to: req.from, selected: none}`. -/
theorem request_decline_spec (n : Node) (gate : Bool) (pick : Option NodeId)
    (req : PushPullRequest) :
    ((n.handle_push_pull_request gate pick req).2.selected = none ↔ gate = false) ∧
    (gate = false →
      (n.handle_push_pull_request gate pick req).1 = n ∧
      (n.handle_push_pull_request gate pick req).2 =
        { «from» := n.id, «to» := req.«from», selected := none }) := by
  cases gate <;> simp [Node.handle_push_pull_request]

/-- Witness for C3 at `n = ⟨1, {2}⟩`, `gate = false`, `pick = none`, `req = ⟨5, 1⟩`. -/
theorem request_decline_spec_witness :
    (((Node.mk 1 {2}).handle_push_pull_request false none ⟨5, 1⟩).2.selected = none ↔
      false = false) ∧
    (false = false →
      ((Node.mk 1 {2}).handle_push_pull_request false none ⟨5, 1⟩).1 = Node.mk 1 {2} ∧
      ((Node.mk 1 {2}).handle_push_pull_request false none ⟨5, 1⟩).2 =
        { «from» := (Node.mk 1 {2}).id, «to» := (5 : NodeId), selected := none }) :=
  request_decline_spec (Node.mk 1 {2}) false none ⟨5, 1⟩

/-- C4: `handle_push_pull_response` ignores a `none` reply, and on
`some v3` removes `resp.from` and then inserts `v3` with plain set
semantics, the cases `v3 = resp.from` and `v3 = self.id` included. -/
theorem response_spec (n : Node) (resp : PushPullResponse) :
    (resp.selected = none → n.handle_push_pull_response resp = n) ∧
    (∀ v3, resp.selected = some v3 →
      n.handle_push_pull_response resp =
        { n with conns := insert v3 (n.conns.erase resp.«from») }) := by
  obtain ⟨f, t, sel⟩ := resp
  cases sel <;> simp [Node.handle_push_pull_response]

/-- Witness for C4 at `n = ⟨1, {2, 1}⟩`, `resp = ⟨2, 1, some 2⟩` (a self-loop
reply, `v3 = resp.from`). -/
theorem response_spec_witness :
    ((PushPullResponse.mk 2 1 (some 2)).selected = none →
      (Node.mk 1 {2, 1}).handle_push_pull_response ⟨2, 1, some 2⟩ = Node.mk 1 {2, 1}) ∧
    (∀ v3, (PushPullResponse.mk 2 1 (some 2)).selected = some v3 →
      (Node.mk 1 {2, 1}).handle_push_pull_response ⟨2, 1, some 2⟩ =
        { Node.mk 1 {2, 1} with
            conns := insert v3 ((Node.mk 1 {2, 1}).conns.erase
              (PushPullResponse.mk 2 1 (some 2)).«from») }) :=
  response_spec (Node.mk 1 {2, 1}) ⟨2, 1, some 2⟩

/-- C6: `start_push_pull` never mutates the node; with a failing gate it
produces nothing, with a passing gate it produces
`Request{from: self.id, to: v2}` where `v2` is a member of the current view,
or the node's own id when the view is empty. -/
theorem start_push_pull_spec (n : Node) (gate : Bool) (pick : Option NodeId)
    (hpick : pickValid n.conns pick) :
    (n.start_push_pull gate pick).1 = n ∧
    (gate = false → (n.start_push_pull gate pick).2 = none) ∧
    (gate = true →
      (n.start_push_pull gate pick).2 = some { «from» := n.id, «to» := pick.getD n.id } ∧
      (pick.getD n.id ∈ n.conns ∨ (n.conns = ∅ ∧ pick.getD n.id = n.id))) := by
  cases gate with
  | false => simp [Node.start_push_pull]
  | true =>
    refine ⟨rfl, by simp, fun _ => ⟨rfl, ?_⟩⟩
    cases pick with
    | none => exact Or.inr ⟨hpick, rfl⟩
    | some x => exact Or.inl hpick

/-- Witness for C6 at `n = ⟨1, {2}⟩`, `gate = true`, `pick = some 2`. -/
theorem start_push_pull_spec_witness :
    pickValid (Node.mk 1 {2}).conns (some 2) ∧
    ((Node.mk 1 {2}).start_push_pull true (some 2)).1 = Node.mk 1 {2} ∧
    (true = false → ((Node.mk 1 {2}).start_push_pull true (some 2)).2 = none) ∧
    (true = true →
      ((Node.mk 1 {2}).start_push_pull true (some 2)).2 =
        some { «from» := (Node.mk 1 {2}).id, «to» := (some (2 : NodeId)).getD (Node.mk 1 {2}).id } ∧
      ((some (2 : NodeId)).getD (Node.mk 1 {2}).id ∈ (Node.mk 1 {2}).conns ∨
        ((Node.mk 1 {2}).conns = ∅ ∧ (some (2 : NodeId)).getD (Node.mk 1 {2}).id = (Node.mk 1 {2}).id))) :=
  ⟨by decide, start_push_pull_spec (Node.mk 1 {2}) true (some 2) (by decide)⟩

/-- C7: with both gates forced true, starting from `v1 = ⟨1, {2}⟩` and
`v2 = ⟨2, {3}⟩`, one full round produces `v1.conns = {3}` and
`v2.conns = {1}`, and the uninvolved node `Node.new 3` still has an empty
view (mirrors `tests::case_0`). -/
theorem forced_round_case_0 (pick1 pick2 : Option NodeId)
    (h1 : pickValid (Node.mk 1 {2}).conns pick1)
    (h2 : pickValid (Node.mk 2 {3}).conns pick2) :
    ((Node.mk 1 {2}).start_push_pull true pick1).2 = some { «from» := 1, «to» := 2 } ∧
    ((Node.mk 2 {3}).handle_push_pull_request true pick2 { «from» := 1, «to» := 2 }).2 =
      { «from» := 2, «to» := 1, selected := some 3 } ∧
    ((Node.mk 2 {3}).handle_push_pull_request true pick2 { «from» := 1, «to» := 2 }).1 =
      Node.mk 2 {1} ∧
    (Node.mk 1 {2}).handle_push_pull_response { «from» := 2, «to» := 1, selected := some 3 } =
      Node.mk 1 {3} ∧
    (Node.new 3).conns = ∅ := by
  have hp1 : pick1 = some 2 := by
    cases pick1 with
    | none => exact absurd h1 (by decide)
    | some x =>
      have hx : x ∈ ({2} : Finset NodeId) := h1
      rw [Finset.mem_singleton] at hx
      rw [hx]
  have hp2 : pick2 = some 3 := by
    cases pick2 with
    | none => exact absurd h2 (by decide)
    | some x =>
      have hx : x ∈ ({3} : Finset NodeId) := h2
      rw [Finset.mem_singleton] at hx
      rw [hx]
  subst hp1
  subst hp2
  decide

/-- Witness for C7 at `pick1 = some 2`, `pick2 = some 3`. -/
theorem forced_round_case_0_witness :
    pickValid (Node.mk 1 {2}).conns (some 2) ∧
    pickValid (Node.mk 2 {3}).conns (some 3) ∧
    (((Node.mk 1 {2}).start_push_pull true (some 2)).2 = some { «from» := 1, «to» := 2 } ∧
    ((Node.mk 2 {3}).handle_push_pull_request true (some 3) { «from» := 1, «to» := 2 }).2 =
      { «from» := 2, «to» := 1, selected := some 3 } ∧
    ((Node.mk 2 {3}).handle_push_pull_request true (some 3) { «from» := 1, «to» := 2 }).1 =
      Node.mk 2 {1} ∧
    (Node.mk 1 {2}).handle_push_pull_response { «from» := 2, «to» := 1, selected := some 3 } =
      Node.mk 1 {3} ∧
    (Node.new 3).conns = ∅) :=
  ⟨by decide, by decide, forced_round_case_0 (some 2) (some 3) (by decide) (by decide)⟩

/-- C8 counterexample: the claim "for every prior view not containing
`req.from`, `selected` is never `Some(req.from)`" fails when the view is
empty and the request comes from the node itself: the self-fallback makes
the responder select the requester. Here `n = ⟨1, ∅⟩`, `req = ⟨1, 1⟩`,
`pick = none` (the only valid pick on an empty view): `1 ∉ ∅` yet
`selected = some 1 = some req.from`. -/
theorem requester_reselected_on_empty_self_request :
    (1 : NodeId) ∉ (Node.mk 1 ∅).conns ∧
    pickValid (Node.mk 1 ∅).conns none ∧
    ((Node.mk 1 ∅).handle_push_pull_request true none { «from» := 1, «to» := 1 }).2.selected =
      some 1 := by
  decide

/-- C8 (amended): when the prior view does not contain `req.from` and the
degenerate case (empty view with `req.from` equal to the node's own id) is
excluded, a participating `handle_push_pull_request` never selects the
requester; conversely, with `req.from` already in the view, `v3 = req.from`
is possible and produces the documented erase-then-insert rewiring
(`n = ⟨2, {1}⟩`, `req.from = 1`, `pick = some 1` yields `selected = some 1`
and view `{1}`). -/
theorem requester_not_reselected (n : Node) (pick : Option NodeId)
    (req : PushPullRequest) (hpick : pickValid n.conns pick)
    (hfrom : req.«from» ∉ n.conns) (hor : n.conns ≠ ∅ ∨ req.«from» ≠ n.id) :
    (n.handle_push_pull_request true pick req).2.selected ≠ some req.«from» ∧
    (((Node.mk 2 {1}).handle_push_pull_request true (some 1) { «from» := 1, «to» := 2 }).2.selected
      = some 1 ∧
    ((Node.mk 2 {1}).handle_push_pull_request true (some 1) { «from» := 1, «to» := 2 }).1.conns
      = {1}) := by
  refine ⟨?_, by decide, by decide⟩
  cases pick with
  | none =>
    have h0 : n.conns = ∅ := hpick
    intro hc
    have hid : n.id = req.«from» := by
      simpa [Node.handle_push_pull_request] using hc
    rcases hor with h | h
    · exact h h0
    · exact h hid.symm
  | some x =>
    have hx : x ∈ n.conns := hpick
    intro hc
    have hxe : x = req.«from» := by
      simpa [Node.handle_push_pull_request] using hc
    exact hfrom (hxe ▸ hx)

/-- Witness for the amended C8 at `n = ⟨7, {2}⟩`, `pick = some 2`,
`req = ⟨5, 7⟩` (requester `5` absent from the view `{2}`). -/
theorem requester_not_reselected_witness :
    pickValid (Node.mk 7 {2}).conns (some 2) ∧
    (5 : NodeId) ∉ (Node.mk 7 {2}).conns ∧
    ((Node.mk 7 {2}).conns ≠ ∅ ∨ (5 : NodeId) ≠ (Node.mk 7 {2}).id) ∧
    (((Node.mk 7 {2}).handle_push_pull_request true (some 2) ⟨5, 7⟩).2.selected ≠ some 5 ∧
    (((Node.mk 2 {1}).handle_push_pull_request true (some 1) { «from» := 1, «to» := 2 }).2.selected
      = some 1 ∧
    ((Node.mk 2 {1}).handle_push_pull_request true (some 1) { «from» := 1, «to» := 2 }).1.conns
      = {1})) :=
  ⟨by decide, by decide, by decide,
    requester_not_reselected (Node.mk 7 {2}) (some 2) ⟨5, 7⟩ (by decide) (by decide)
      (Or.inl (by decide))⟩

/-- C9: with a non-empty view and a participating gate,
`handle_push_pull_request` never grows the view: the new cardinality is the
old one when `req.from` was absent or equal to the erased `v3`, and the old
one minus one when `req.from` was present and distinct from `v3`. -/
theorem request_never_grows_view (n : Node) (v3 : NodeId) (req : PushPullRequest)
    (hne : n.conns.Nonempty) (hv3 : v3 ∈ n.conns) :
    (n.handle_push_pull_request true (some v3) req).1.conns.card ≤ n.conns.card ∧
    (req.«from» ∈ n.conns ∧ req.«from» ≠ v3 →
      (n.handle_push_pull_request true (some v3) req).1.conns.card = n.conns.card - 1) ∧
    (req.«from» ∉ n.conns ∨ req.«from» = v3 →
      (n.handle_push_pull_request true (some v3) req).1.conns.card = n.conns.card) := by
  have hview : (n.handle_push_pull_request true (some v3) req).1.conns =
      insert req.«from» (n.conns.erase v3) := rfl
  have hec : (n.conns.erase v3).card = n.conns.card - 1 := Finset.card_erase_of_mem hv3
  have hpos : 1 ≤ n.conns.card := Finset.card_pos.mpr hne
  by_cases hm : req.«from» ∈ n.conns.erase v3
  · obtain ⟨hne', hin⟩ := Finset.mem_erase.mp hm
    have hcard : (n.handle_push_pull_request true (some v3) req).1.conns.card =
        n.conns.card - 1 := by
      rw [hview, Finset.insert_eq_self.mpr hm, hec]
    refine ⟨by omega, fun _ => hcard, fun h => ?_⟩
    rcases h with h | h
    · exact absurd hin h
    · exact absurd h hne'
  · have hcard : (n.handle_push_pull_request true (some v3) req).1.conns.card =
        n.conns.card := by
      rw [hview, Finset.card_insert_of_not_mem hm, hec]
      omega
    refine ⟨by omega, fun ⟨hin, hne'⟩ => ?_, fun _ => hcard⟩
    exact absurd (Finset.mem_erase.mpr ⟨hne', hin⟩) hm

/-- Witness for C9 at `n = ⟨5, {1, 2}⟩`, `v3 = 2`, `req = ⟨1, 5⟩`
(`req.from = 1` is in the view and distinct from `v3 = 2`). -/
theorem request_never_grows_view_witness :
    (Node.mk 5 {1, 2}).conns.Nonempty ∧
    (2 : NodeId) ∈ (Node.mk 5 {1, 2}).conns ∧
    (((Node.mk 5 {1, 2}).handle_push_pull_request true (some 2) ⟨1, 5⟩).1.conns.card ≤
      (Node.mk 5 {1, 2}).conns.card ∧
    ((1 : NodeId) ∈ (Node.mk 5 {1, 2}).conns ∧ (1 : NodeId) ≠ 2 →
      ((Node.mk 5 {1, 2}).handle_push_pull_request true (some 2) ⟨1, 5⟩).1.conns.card =
        (Node.mk 5 {1, 2}).conns.card - 1) ∧
    ((1 : NodeId) ∉ (Node.mk 5 {1, 2}).conns ∨ (1 : NodeId) = 2 →
      ((Node.mk 5 {1, 2}).handle_push_pull_request true (some 2) ⟨1, 5⟩).1.conns.card =
        (Node.mk 5 {1, 2}).conns.card)) :=
  ⟨⟨1, by decide⟩, by decide,
    request_never_grows_view (Node.mk 5 {1, 2}) 2 ⟨1, 5⟩ ⟨1, by decide⟩ (by decide)⟩

/-- C10: neither handler reads the `to` field of the message it processes:
requests differing only in `to` yield identical states and responses (the
response being addressed to `request.from`), and responses differing only
in `to` yield identical states. -/
theorem handlers_ignore_to_field (n : Node) (gate : Bool) (pick : Option NodeId)
    (f t t' : NodeId) (sel : Option NodeId) :
    n.handle_push_pull_request gate pick { «from» := f, «to» := t } =
      n.handle_push_pull_request gate pick { «from» := f, «to» := t' } ∧
    (n.handle_push_pull_request gate pick { «from» := f, «to» := t }).2.«to» = f ∧
    n.handle_push_pull_response { «from» := f, «to» := t, selected := sel } =
      n.handle_push_pull_response { «from» := f, «to» := t', selected := sel } := by
  refine ⟨?_, ?_, ?_⟩
  · cases gate <;> rfl
  · cases gate <;> rfl
  · cases sel <;> rfl
